import Mathlib

/-!
Verification of the simplecache repository: a Lean shallow embedding of the
two cache variants found in the sources, together with theorems settling the
specification's claims about them.

Time is modelled as `Int` (Go `time.Time`/`time.Duration` are nanosecond
counts); values as a type parameter `α` whose Go zero value is `default`;
the Go `map[string]cacheItem[T]` as an association list with Go-map
lookup/insert/delete semantics. Stateful methods become functions from the
receiver state to (result, new state).
-/

/-- Model of Go `a.After(b)` on `time.Time`: reports whether instant `a` is
strictly after instant `b`. -/
def timeAfter (a b : Int) : Bool := b < a

/-- Model of `cacheItem[T]` (identical in both source variants): a stored
value together with its absolute expiry instant. -/
structure cacheItem (α : Type) where
  value : α
  expiryTime : Int

/-- Go map read `d[key]`: the entry stored under `key`, if present. -/
def mapGet {α : Type} : List (String × cacheItem α) → String → Option (cacheItem α)
  | [], _ => none
  | (k, it) :: rest, key => if k = key then some it else mapGet rest key

/-- Go map `delete(d, key)`: removes any entry stored under `key`. -/
def mapDel {α : Type} : List (String × cacheItem α) → String → List (String × cacheItem α)
  | [], _ => []
  | (k, it) :: rest, key =>
    if k = key then mapDel rest key else (k, it) :: mapDel rest key

/-- Go map write `d[key] = it`: unconditional upsert of `key`. -/
def mapSet {α : Type} (d : List (String × cacheItem α)) (key : String)
    (it : cacheItem α) : List (String × cacheItem α) :=
  (key, it) :: mapDel d key

namespace VariantB

/-- Model of `SimpleCache[T]` from `simple_cache.go` (per-call TTL, janitor
goroutine). The mutex is a concurrency artifact with no sequential content;
`done` is modelled by whether the channel has been closed, `closeOnce` by
whether `Close` already ran its body, `wg` by whether the janitor goroutine
is still running. -/
structure SimpleCache (α : Type) where
  data : List (String × cacheItem α)
  cleanupInterval : Int
  doneClosed : Bool
  closeOnceUsed : Bool
  janitorRunning : Bool

/-- Model of `NewSimpleCache[T](cleanupInterval)`: fresh empty cache with an
open `done` channel, an unused `closeOnce` and the janitor goroutine spawned. -/
def NewSimpleCache (α : Type) (cleanupInterval : Int) : SimpleCache α :=
  { data := [], cleanupInterval := cleanupInterval, doneClosed := false,
    closeOnceUsed := false, janitorRunning := true }

/-- Model of Go `time.NewTicker(d)`: the standard library documents that it
panics when the duration is not positive; a panic in the janitor goroutine is
fatal to the process, so it is modelled as `Except.error`. -/
def newTicker (d : Int) : Except String Unit :=
  if d ≤ 0 then Except.error "non-positive interval for NewTicker" else Except.ok ()

/-- The first action of the `janitor` goroutine spawned by `NewSimpleCache`:
`time.NewTicker(c.cleanupInterval)`. -/
def startJanitor {α : Type} (c : SimpleCache α) : Except String (SimpleCache α) :=
  match newTicker c.cleanupInterval with
  | Except.error e => Except.error e
  | Except.ok _ => Except.ok c

/-- Model of `Set(key, expiryDur, value)` executed at instant `now`: upsert
with `expiryTime = now + expiryDur`. -/
def Set {α : Type} (c : SimpleCache α) (key : String) (expiryDur : Int)
    (value : α) (now : Int) : SimpleCache α :=
  { c with data := mapSet c.data key { value := value, expiryTime := now + expiryDur } }

/-- Model of `Get(key)` executed at instant `now`: returns `(value, found)`
and the receiver state after the call (the body never writes `c.data`). -/
def Get {α : Type} [Inhabited α] (c : SimpleCache α) (key : String)
    (now : Int) : (α × Bool) × SimpleCache α :=
  match mapGet c.data key with
  | none => ((default, false), c)
  | some item =>
    if timeAfter now item.expiryTime then ((default, false), c)
    else ((item.value, true), c)

/-- Model of one pass of the `janitor` loop body at instant `now`: delete
every entry whose expiry `now` is strictly after, keep the rest unchanged. -/
def janitorSweep {α : Type} : List (String × cacheItem α) → Int → List (String × cacheItem α)
  | [], _ => []
  | (k, it) :: rest, now =>
    if timeAfter now it.expiryTime then janitorSweep rest now
    else (k, it) :: janitorSweep rest now

/-- One tick of the janitor applied to the whole cache state. -/
def janitorTick {α : Type} (c : SimpleCache α) (now : Int) : SimpleCache α :=
  { c with data := janitorSweep c.data now }

/-- Model of Go `close(ch)`: closing an already-closed channel panics. -/
def closeChan (alreadyClosed : Bool) : Except String Unit :=
  if alreadyClosed then Except.error "close of closed channel" else Except.ok ()

/-- Model of `Close()`: `closeOnce.Do(close(done))` then `wg.Wait()`. The
once-guard skips the body on every call after the first; closing `done`
makes the janitor's next `select` take the `done` branch and return, after
which `wg.Wait()` returns. -/
def Close {α : Type} (c : SimpleCache α) : Except String (SimpleCache α) :=
  if c.closeOnceUsed then Except.ok c
  else
    match closeChan c.doneClosed with
    | Except.error e => Except.error e
    | Except.ok _ =>
      Except.ok { c with doneClosed := true, closeOnceUsed := true, janitorRunning := false }

end VariantB

namespace VariantA

/-- Model of `SimpleCache[T]` from the unnamed source file (fixed TTL at
construction, no janitor): the map plus the cache-wide `expiryDur`. -/
structure SimpleCache (α : Type) where
  data : List (String × cacheItem α)
  expiryDur : Int

/-- Model of Variant A `NewSimpleCache[T](expiryDur)`: empty map, stored TTL. -/
def NewSimpleCache (α : Type) (expiryDur : Int) : SimpleCache α :=
  { data := [], expiryDur := expiryDur }

/-- Model of Variant A `Set(key, value)` executed at instant `now`: upsert
with `expiryTime = now + c.expiryDur`. -/
def Set {α : Type} (c : SimpleCache α) (key : String) (value : α)
    (now : Int) : SimpleCache α :=
  { c with data := mapSet c.data key { value := value, expiryTime := now + c.expiryDur } }

/-- Model of Variant A `Get(key)` executed at instant `now`: on an entry
whose expiry `now` is strictly after, deletes it and reports not-found;
otherwise returns it. Result is `((value, found), state after the call)`. -/
def Get {α : Type} [Inhabited α] (c : SimpleCache α) (key : String)
    (now : Int) : (α × Bool) × SimpleCache α :=
  match mapGet c.data key with
  | none => ((default, false), c)
  | some item =>
    if timeAfter now item.expiryTime then
      ((default, false), { c with data := mapDel c.data key })
    else ((item.value, true), c)

end VariantA

/-- Reading back the key just upserted finds exactly the upserted item. -/
theorem mapGet_mapSet_self {α : Type} (d : List (String × cacheItem α))
    (key : String) (it : cacheItem α) : mapGet (mapSet d key it) key = some it := by
  simp [mapSet, mapGet]

/-- A janitor pass is precisely a filter keeping the entries whose expiry has
not passed. -/
theorem janitorSweep_eq_filter {α : Type} (d : List (String × cacheItem α))
    (now : Int) :
    VariantB.janitorSweep d now = d.filter (fun p => ! timeAfter now p.2.expiryTime) := by
  induction d with
  | nil => rfl
  | cons hd tl ih =>
    obtain ⟨k, it⟩ := hd
    by_cases h : timeAfter now it.expiryTime
    · simp [VariantB.janitorSweep, List.filter, h, ih]
    · simp [VariantB.janitorSweep, List.filter, h, ih]

/-- A concrete Variant B cache holding one entry expiring at instant 5. -/
def sampleB : VariantB.SimpleCache Nat :=
  { data := [("k", { value := 42, expiryTime := 5 })], cleanupInterval := 1,
    doneClosed := false, closeOnceUsed := false, janitorRunning := true }

/-- A concrete Variant A cache holding one entry expiring at instant 5,
with a fixed TTL of 5. -/
def sampleA : VariantA.SimpleCache Nat :=
  { data := [("k", { value := 42, expiryTime := 5 })], expiryDur := 5 }

/-- C1: counterexample. The claim says a read at `t = expiresAt` returns
`(zero, false)`, but `Get` uses Go's strict `After`, so at the boundary
instant `t = expiresAt = 5` the code returns the stored value with
`found = true`. -/
theorem get_at_expiry_instant_counterexample :
    (5 : Int) ≥ 5 ∧ (VariantB.Get sampleB "k" 5).1 = ((42 : Nat), true) ∧
      (VariantB.Get sampleB "k" 5).1 ≠ ((default : Nat), false) :=
  ⟨by decide, rfl, by decide⟩

/-- C1 (amended): in both variants an entry is live iff the read time is at
or before `expiresAt`: a present entry yields `(value, true)` when
`t ≤ expiresAt` and `(zero, false)` when `t > expiresAt`. -/
theorem get_liveness_boundary {α : Type} [Inhabited α]
    (cB : VariantB.SimpleCache α) (cA : VariantA.SimpleCache α)
    (k : String) (it : cacheItem α) (t : Int)
    (hB : mapGet cB.data k = some it) (hA : mapGet cA.data k = some it) :
    (t ≤ it.expiryTime →
      (VariantB.Get cB k t).1 = (it.value, true) ∧ (VariantA.Get cA k t).1 = (it.value, true))
  ∧ (it.expiryTime < t →
      (VariantB.Get cB k t).1 = (default, false) ∧ (VariantA.Get cA k t).1 = (default, false)) := by
  constructor
  · intro h
    have hb : timeAfter t it.expiryTime = false := by
      simp only [timeAfter, decide_eq_false_iff_not]; omega
    constructor
    · simp [VariantB.Get, hB, hb]
    · simp [VariantA.Get, hA, hb]
  · intro h
    have hb : timeAfter t it.expiryTime = true := by
      simp only [timeAfter, decide_eq_true_eq]; omega
    constructor
    · simp [VariantB.Get, hB, hb]
    · simp [VariantA.Get, hA, hb]

/-- C1 witness: the boundary law applied to the concrete caches, at a live
instant for Variant B and a dead instant for Variant A. -/
theorem get_liveness_boundary_witness :
    (VariantB.Get sampleB "k" 3).1 = (42, true)
  ∧ (VariantA.Get sampleA "k" 7).1 = ((default : Nat), false) :=
  ⟨((get_liveness_boundary sampleB sampleA "k" { value := 42, expiryTime := 5 } 3
      rfl rfl).1 (by decide)).1,
   ((get_liveness_boundary sampleB sampleA "k" { value := 42, expiryTime := 5 } 7
      rfl rfl).2 (by decide)).2⟩

/-- C2: constructing a Variant B cache with cleanup interval 0 is fatal. The
spawned janitor goroutine immediately calls `time.NewTicker(0)`, which the
Go standard library documents as panicking for non-positive durations; an
unrecovered panic in a goroutine kills the embedding process. -/
theorem new_nonpositive_interval_is_fatal :
    VariantB.startJanitor (VariantB.NewSimpleCache Nat 0) =
      Except.error "non-positive interval for NewTicker" := rfl

/-- C3: with a positive per-call duration (Variant B) or configured TTL
(Variant A), `Set` immediately followed by `Get` of the same key returns
the stored value with `found = true`. -/
theorem set_get_roundtrip {α : Type} [Inhabited α]
    (cB : VariantB.SimpleCache α) (cA : VariantA.SimpleCache α)
    (k : String) (v : α) (d t : Int) (hd : 0 < d) (ha : 0 < cA.expiryDur) :
    (VariantB.Get (VariantB.Set cB k d v t) k t).1 = (v, true)
  ∧ (VariantA.Get (VariantA.Set cA k v t) k t).1 = (v, true) := by
  constructor
  · have h1 : mapGet (VariantB.Set cB k d v t).data k =
        some { value := v, expiryTime := t + d } := mapGet_mapSet_self _ _ _
    have h2 : timeAfter t (t + d) = false := by
      simp only [timeAfter, decide_eq_false_iff_not]; omega
    simp [VariantB.Get, h1, h2]
  · have h1 : mapGet (VariantA.Set cA k v t).data k =
        some { value := v, expiryTime := t + cA.expiryDur } := mapGet_mapSet_self _ _ _
    have h2 : timeAfter t (t + cA.expiryDur) = false := by
      simp only [timeAfter, decide_eq_false_iff_not]; omega
    simp [VariantA.Get, h1, h2]

/-- C3 witness: the round trip on the concrete caches with duration 4 at
instant 10. -/
theorem set_get_roundtrip_witness :
    (VariantB.Get (VariantB.Set sampleB "g" 4 99 10) "g" 10).1 = (99, true)
  ∧ (VariantA.Get (VariantA.Set sampleA "g" 99 10) "g" 10).1 = (99, true) :=
  set_get_roundtrip sampleB sampleA "g" 99 4 10 (by decide) (by decide)

/-- C4: counterexample. The claim says a zero-duration `Set` followed
immediately by `Get` returns `(zero, false)`, but at the very instant of
the `Set` the expiry equals the read time and Go's strict `After` judges
the entry live, so the code returns `(value, true)`. -/
theorem zero_duration_same_instant_counterexample :
    (VariantB.Get (VariantB.Set (VariantB.NewSimpleCache Nat 1) "k" 0 7 0) "k" 0).1 = (7, true)
  ∧ (VariantB.Get (VariantB.Set (VariantB.NewSimpleCache Nat 1) "k" 0 7 0) "k" 0).1 ≠
      ((default : Nat), false) :=
  ⟨rfl, by decide⟩

/-- C4 (amended): a `Set` under a non-positive duration (Variant B) or
non-positive configured TTL (Variant A) followed by a `Get` of that key at
any strictly later instant returns `(zero, false)`; only a read at the
exact instant of a zero-duration write can still see the value. -/
theorem nonpositive_duration_not_retrievable {α : Type} [Inhabited α]
    (cB : VariantB.SimpleCache α) (cA : VariantA.SimpleCache α)
    (k : String) (v : α) (d t0 t1 : Int)
    (hd : d ≤ 0) (ha : cA.expiryDur ≤ 0) (ht : t0 < t1) :
    (VariantB.Get (VariantB.Set cB k d v t0) k t1).1 = ((default : α), false)
  ∧ (VariantA.Get (VariantA.Set cA k v t0) k t1).1 = ((default : α), false) := by
  constructor
  · have h1 : mapGet (VariantB.Set cB k d v t0).data k =
        some { value := v, expiryTime := t0 + d } := mapGet_mapSet_self _ _ _
    have h2 : timeAfter t1 (t0 + d) = true := by
      simp only [timeAfter, decide_eq_true_eq]; omega
    simp [VariantB.Get, h1, h2]
  · have h1 : mapGet (VariantA.Set cA k v t0).data k =
        some { value := v, expiryTime := t0 + cA.expiryDur } := mapGet_mapSet_self _ _ _
    have h2 : timeAfter t1 (t0 + cA.expiryDur) = true := by
      simp only [timeAfter, decide_eq_true_eq]; omega
    simp [VariantA.Get, h1, h2]

/-- C4 witness: a duration of -2 (Variant B) and a configured TTL of 0
(Variant A), written at instant 10 and read at instant 11. -/
theorem nonpositive_duration_not_retrievable_witness :
    (VariantB.Get (VariantB.Set sampleB "z" (-2) 7 10) "z" 11).1 = ((default : Nat), false)
  ∧ (VariantA.Get (VariantA.Set (VariantA.NewSimpleCache Nat 0) "z" 7 10) "z" 11).1 =
      ((default : Nat), false) :=
  nonpositive_duration_not_retrievable sampleB (VariantA.NewSimpleCache Nat 0) "z" 7 (-2)
    10 11 (by decide) (by decide) (by decide)

/-- C5: a janitor pass at instant `t` keeps an entry, with value and expiry
unchanged, exactly when its expiry has not passed (`t ≤ expiryTime`), so no
entry with an expiry earlier than `t` survives; and when every entry has
expired strictly before `t`, the pass empties the map. -/
theorem janitor_sweep_exact {α : Type} (d : List (String × cacheItem α)) (t : Int) :
    (∀ p : String × cacheItem α,
      p ∈ VariantB.janitorSweep d t ↔ (p ∈ d ∧ t ≤ p.2.expiryTime))
  ∧ ((∀ p ∈ d, p.2.expiryTime < t) → (VariantB.janitorSweep d t).length = 0) := by
  constructor
  · intro p
    rw [janitorSweep_eq_filter]
    simp only [List.mem_filter, Bool.not_eq_true', timeAfter, decide_eq_false_iff_not, not_lt]
  · induction d with
    | nil => intro _; rfl
    | cons hd tl ih =>
      intro h
      obtain ⟨k, it⟩ := hd
      have h1 : timeAfter t it.expiryTime = true := by
        simp only [timeAfter, decide_eq_true_eq]
        exact h (k, it) (List.mem_cons_self _ _)
      simp only [VariantB.janitorSweep, h1, if_true]
      exact ih (fun p hp => h p (List.mem_cons_of_mem _ hp))

/-- C5 witness: sweeping a two-entry map at instant 5 keeps only the entry
expiring at 10, and sweeping a fully expired map empties it. -/
theorem janitor_sweep_exact_witness :
    (("b", ({ value := 2, expiryTime := 10 } : cacheItem Nat)) ∈
      VariantB.janitorSweep [("a", { value := 1, expiryTime := 0 }),
        ("b", { value := 2, expiryTime := 10 })] 5)
  ∧ (VariantB.janitorSweep [("a", ({ value := 1, expiryTime := 0 } : cacheItem Nat))] 5).length = 0 :=
  ⟨((janitor_sweep_exact [("a", { value := 1, expiryTime := 0 }),
      ("b", { value := 2, expiryTime := 10 })] 5).1 _).mpr
    (by refine ⟨?_, by decide⟩; simp),
   (janitor_sweep_exact [("a", { value := 1, expiryTime := 0 })] 5).2
    (by intro p hp; simp at hp; rw [hp]; decide)⟩

/-- C6: Variant B `Get` never mutates the mapping: the receiver state after
the call equals the state before it, for every key, state and instant,
including a present-but-expired entry. -/
theorem get_never_mutates {α : Type} [Inhabited α]
    (c : VariantB.SimpleCache α) (k : String) (t : Int) :
    (VariantB.Get c k t).2 = c := by
  cases h : mapGet c.data k with
  | none => simp [VariantB.Get, h]
  | some item =>
    by_cases h2 : timeAfter t item.expiryTime <;> simp [VariantB.Get, h, h2]

/-- C7: two successive writes to the same key leave exactly the second
value, with expiry reset to the second write's instant plus its duration,
regardless of the first entry's expiry; a `Get` at the second write's
instant returns `(v2, true)` in both variants. -/
theorem overwrite_resets_expiry {α : Type} [Inhabited α]
    (cB : VariantB.SimpleCache α) (cA : VariantA.SimpleCache α)
    (k : String) (v1 v2 : α) (d1 d2 t1 t2 : Int)
    (hd : 0 < d2) (ha : 0 < cA.expiryDur) :
    (mapGet (VariantB.Set (VariantB.Set cB k d1 v1 t1) k d2 v2 t2).data k =
        some { value := v2, expiryTime := t2 + d2 }
      ∧ (VariantB.Get (VariantB.Set (VariantB.Set cB k d1 v1 t1) k d2 v2 t2) k t2).1 = (v2, true))
  ∧ (mapGet (VariantA.Set (VariantA.Set cA k v1 t1) k v2 t2).data k =
        some { value := v2, expiryTime := t2 + cA.expiryDur }
      ∧ (VariantA.Get (VariantA.Set (VariantA.Set cA k v1 t1) k v2 t2) k t2).1 = (v2, true)) := by
  have hB : mapGet (VariantB.Set (VariantB.Set cB k d1 v1 t1) k d2 v2 t2).data k =
      some { value := v2, expiryTime := t2 + d2 } := mapGet_mapSet_self _ _ _
  have hA : mapGet (VariantA.Set (VariantA.Set cA k v1 t1) k v2 t2).data k =
      some { value := v2, expiryTime := t2 + cA.expiryDur } := mapGet_mapSet_self _ _ _
  refine ⟨⟨hB, ?_⟩, ⟨hA, ?_⟩⟩
  · have h2 : timeAfter t2 (t2 + d2) = false := by
      simp only [timeAfter, decide_eq_false_iff_not]; omega
    simp [VariantB.Get, hB, h2]
  · have h2 : timeAfter t2 (t2 + cA.expiryDur) = false := by
      simp only [timeAfter, decide_eq_false_iff_not]; omega
    simp [VariantA.Get, hA, h2]

/-- C7 witness: writing 1 then 2 under the same key on the concrete caches,
reading at the second write's instant 10. -/
theorem overwrite_resets_expiry_witness :
    (mapGet (VariantB.Set (VariantB.Set sampleB "k" 3 1 0) "k" 4 2 10).data "k" =
        some { value := 2, expiryTime := 10 + 4 }
      ∧ (VariantB.Get (VariantB.Set (VariantB.Set sampleB "k" 3 1 0) "k" 4 2 10) "k" 10).1 = (2, true))
  ∧ (mapGet (VariantA.Set (VariantA.Set sampleA "k" 1 0) "k" 2 10).data "k" =
        some { value := 2, expiryTime := 10 + 5 }
      ∧ (VariantA.Get (VariantA.Set (VariantA.Set sampleA "k" 1 0) "k" 2 10) "k" 10).1 = (2, true)) :=
  overwrite_resets_expiry sampleB sampleA "k" 1 2 3 4 0 10 (by decide) (by decide)

/-- C8: counterexample. The claim says Variant A removes a present entry and
reports not-found whenever `now >= expiresAt`, but at the boundary instant
`now = expiresAt = 5` Go's strict `After` judges the entry live: the code
returns `(value, true)` and leaves the mapping untouched. -/
theorem variantA_expiry_instant_counterexample :
    (5 : Int) ≥ 5 ∧ (VariantA.Get sampleA "k" 5).1 = ((42 : Nat), true)
  ∧ (VariantA.Get sampleA "k" 5).2.data = sampleA.data :=
  ⟨by decide, rfl, rfl⟩

/-- C8 (amended): Variant A `Get` returns not-found and leaves the state
unchanged on an absent key; on a present entry with `now > expiresAt` it
deletes the entry and returns not-found; on a present entry with
`now ≤ expiresAt` (including `now = expiresAt`) it returns the stored value
with `found = true` and leaves the state unchanged. -/
theorem variantA_get_cases {α : Type} [Inhabited α]
    (c : VariantA.SimpleCache α) (k : String) (t : Int) :
    (mapGet c.data k = none → VariantA.Get c k t = ((default, false), c))
  ∧ (∀ it : cacheItem α, mapGet c.data k = some it → it.expiryTime < t →
      VariantA.Get c k t = ((default, false), { c with data := mapDel c.data k }))
  ∧ (∀ it : cacheItem α, mapGet c.data k = some it → t ≤ it.expiryTime →
      VariantA.Get c k t = ((it.value, true), c)) := by
  refine ⟨fun h => ?_, fun it h hexp => ?_, fun it h hlive => ?_⟩
  · simp [VariantA.Get, h]
  · have h2 : timeAfter t it.expiryTime = true := by
      simp only [timeAfter, decide_eq_true_eq]; omega
    simp [VariantA.Get, h, h2]
  · have h2 : timeAfter t it.expiryTime = false := by
      simp only [timeAfter, decide_eq_false_iff_not]; omega
    simp [VariantA.Get, h, h2]

/-- C8 witness: the three cases on the concrete Variant A cache: absent key,
strictly expired read at instant 7, live read at instant 3. -/
theorem variantA_get_cases_witness :
    VariantA.Get sampleA "x" 3 = (((default : Nat), false), sampleA)
  ∧ VariantA.Get sampleA "k" 7 =
      (((default : Nat), false), { sampleA with data := mapDel sampleA.data "k" })
  ∧ VariantA.Get sampleA "k" 3 = ((42, true), sampleA) :=
  ⟨(variantA_get_cases sampleA "x" 3).1 rfl,
   (variantA_get_cases sampleA "k" 7).2.1 { value := 42, expiryTime := 5 } rfl (by decide),
   (variantA_get_cases sampleA "k" 3).2.2 { value := 42, expiryTime := 5 } rfl (by decide)⟩

/-- The concrete Variant B cache after a successful Close. -/
def sampleBClosed : VariantB.SimpleCache Nat :=
  { sampleB with doneClosed := true, closeOnceUsed := true, janitorRunning := false }

/-- C9: Close is idempotent and a second call never panics: whenever a first
Close returns normally, calling Close again on the resulting state returns
normally and leaves the state exactly as the first call left it. -/
theorem close_idempotent {α : Type} (c c' : VariantB.SimpleCache α)
    (h : VariantB.Close c = Except.ok c') :
    VariantB.Close c' = Except.ok c' := by
  by_cases h1 : c.closeOnceUsed
  · simp only [VariantB.Close, h1, if_true, Except.ok.injEq] at h
    subst h
    simp [VariantB.Close, h1]
  · by_cases h2 : c.doneClosed
    · simp [VariantB.Close, VariantB.closeChan, h1, h2] at h
    · simp [VariantB.Close, VariantB.closeChan, h1, h2, Except.ok.injEq] at h
      subst h
      simp [VariantB.Close]

/-- C9 witness: closing the already-closed concrete cache returns it
unchanged. -/
theorem close_idempotent_witness :
    VariantB.Close sampleBClosed =
    Except.ok sampleBClosed :=
  close_idempotent sampleB
    sampleBClosed rfl

/-- C10: Set and Get ignore the lifecycle state: after a successful Close, a
Set produces the same mapping as it would have before the Close, and a Get
of the freshly set key within its duration still returns `(v, true)`. -/
theorem set_get_after_close {α : Type} [Inhabited α]
    (c c' : VariantB.SimpleCache α) (k : String) (v : α) (d t0 t1 : Int)
    (h : VariantB.Close c = Except.ok c') (ht : t1 ≤ t0 + d) :
    (VariantB.Set c' k d v t0).data = (VariantB.Set c k d v t0).data
  ∧ (VariantB.Get (VariantB.Set c' k d v t0) k t1).1 = (v, true) := by
  have hdata : c'.data = c.data := by
    by_cases h1 : c.closeOnceUsed
    · simp only [VariantB.Close, h1, if_true, Except.ok.injEq] at h
      subst h; rfl
    · by_cases h2 : c.doneClosed
      · simp [VariantB.Close, VariantB.closeChan, h1, h2] at h
      · simp [VariantB.Close, VariantB.closeChan, h1, h2, Except.ok.injEq] at h
        subst h; rfl
  constructor
  · simp [VariantB.Set, hdata]
  · have hg : mapGet (VariantB.Set c' k d v t0).data k =
        some { value := v, expiryTime := t0 + d } := mapGet_mapSet_self _ _ _
    have h2 : timeAfter t1 (t0 + d) = false := by
      simp only [timeAfter, decide_eq_false_iff_not]; omega
    simp [VariantB.Get, hg, h2]

/-- C10 witness: on the concrete closed cache, a Set of duration 3 at
instant 0 followed by a Get at instant 2 returns the value. -/
theorem set_get_after_close_witness :
    (VariantB.Set sampleBClosed "q" 3 5 0).data = (VariantB.Set sampleB "q" 3 5 0).data
  ∧ (VariantB.Get (VariantB.Set sampleBClosed "q" 3 5 0) "q" 2).1 = (5, true) :=
  set_get_after_close sampleB
    sampleBClosed
    "q" 5 3 0 2 rfl (by decide)
